import Mathlib

/-!
# Verification of the user-app backend (server.js)

A shallow embedding of the data model and operations of the user-record CRUD
server: the Redis-cluster adapter (readiness flag, command wrapper with its
retry loop, cross-shard key enumeration, startup/fallback sequence) and the
HTTP handlers over the two stores (MySQL table with a unique email column,
Redis hashes keyed by "user:<id>").

Machine integers do not overflow in any of the modelled code paths (counts,
slot totals and ids stay far below 2^53), so numbers are embedded as `Nat`.
Asynchronous effects are embedded by explicit state passing: each handler is
a pure function from the stores (plus the outcome of each external call,
supplied as an explicit argument) to a response and the updated stores.
-/

namespace UserApp

/-! ## JavaScript primitives used by the server -/

/-- Embedding of the JavaScript truthiness test used on request-body string
fields (`!name`): `undefined` and the empty string are falsy. -/
def truthy : Option String → Bool
  | none => false
  | some s => !s.isEmpty

/-- Embedding of `v || d` on an optional string (`phone || ''`,
`user.created_at || now`): the default is taken when the value is missing or
is the empty string. -/
def jsOr (v : Option String) (d : String) : String :=
  match v with
  | none => d
  | some s => if s.isEmpty then d else s

/-- Embedding of `s.includes(pat)` for the non-empty literal patterns the
server tests error messages against. -/
def strIncludes (s pat : String) : Bool := (s.splitOn pat).length != 1

/-- The digit characters produced by JavaScript number-to-string conversion
(one decimal digit; callers only apply this to values below ten). -/
def decDigit : Nat → Char
  | 0 => '0'
  | 1 => '1'
  | 2 => '2'
  | 3 => '3'
  | 4 => '4'
  | 5 => '5'
  | 6 => '6'
  | 7 => '7'
  | 8 => '8'
  | _ => '9'

/-- Digit extraction with explicit fuel (any fuel above the value is
enough); structural so that concrete values evaluate. -/
def natToDigitsGo : Nat → Nat → List Char
  | 0, _ => []
  | fuel + 1, n =>
    if n < 10 then [decDigit n]
    else natToDigitsGo fuel (n / 10) ++ [decDigit (n % 10)]

/-- The character list of the decimal representation of a natural number:
embedding of JavaScript template-literal conversion of an integer
(as in `` `user:${user.id}` ``). -/
def natToDigits (n : Nat) : List Char := natToDigitsGo (n + 1) n

/-- Decimal string of a natural number (JavaScript `${n}` for an integer). -/
def natToDecString (n : Nat) : String := String.mk (natToDigits n)

/-- The test of the regular expression `/^\d+$/` used by the cleanup
endpoint: non-empty and every character a decimal digit. -/
def isDigitChar (c : Char) : Bool := '0' ≤ c && c ≤ '9'

/-- `/^\d+$/.test s`: `s` is non-empty and consists only of digits. -/
def isAllDigits (s : String) : Bool := !s.data.isEmpty && s.data.all isDigitChar

/-- Embedding of JavaScript `key.split(':')` (split on a single character). -/
def splitOnChar (c : Char) : List Char → List (List Char)
  | [] => [[]]
  | x :: xs =>
    if x = c then [] :: splitOnChar c xs
    else
      match splitOnChar c xs with
      | [] => [[x]]
      | g :: gs => (x :: g) :: gs

/-- Embedding of `key.split(':')[1]` — the id part of a `user:<id>` key. -/
def idPart (k : String) : String := String.mk ((splitOnChar ':' k.data).getD 1 [])

/-! ## Redis command wrapper (`executeRedisCommand`, server.js 681–710) -/

/-- Outcome of one invocation of the wrapped command `commandFn(redisCluster)`:
either a value or a thrown error, identified by its message string. -/
inductive CmdResult where
  | ok (v : String)
  | err (msg : String)
deriving DecidableEq, Repr

/-- The classification performed inside the catch block of
`executeRedisCommand`: a failure whose message contains "Connection is closed"
or "CLUSTERDOWN", or observed while the cluster status is not "ready", clears
the `isRedisOperational` flag.  The classification has no other effect. -/
def clearsOperational (msg status : String) : Bool :=
  strIncludes msg "Connection is closed" || strIncludes msg "CLUSTERDOWN" || status != "ready"

/-- The retry loop of `executeRedisCommand`, from a given attempt number with
`fuel` retries left after the current attempt.  `attempts i` is the outcome of
running the command on attempt `i` (1-based) and `statusAt i` the cluster
status observed in attempt `i`'s catch block; `op` is the current
`isRedisOperational` flag.  Returns the result together with the final flag. -/
def execRetry (attempts : Nat → CmdResult) (statusAt : Nat → String)
    (op : Bool) (attempt : Nat) : Nat → Except String String × Bool
  | 0 =>
    match attempts attempt with
    | CmdResult.ok v => (Except.ok v, op)
    | CmdResult.err m =>
      (Except.error m, if clearsOperational m (statusAt attempt) then false else op)
  | fuel + 1 =>
    match attempts attempt with
    | CmdResult.ok v => (Except.ok v, op)
    | CmdResult.err m =>
      execRetry attempts statusAt
        (if clearsOperational m (statusAt attempt) then false else op) (attempt + 1) fuel

/-- Embedding of `executeRedisCommand(commandFn, maxRetries = 3)`: refuse when
the adapter is not ready, otherwise run the command up to `maxRetries` times —
every failure (whatever its classification) is retried until the attempts are
exhausted, and the last error is rethrown unchanged. -/
def executeRedisCommand (ready : Bool) (attempts : Nat → CmdResult)
    (statusAt : Nat → String) (op : Bool) (maxRetries : Nat) :
    Except String String × Bool :=
  if !ready then (Except.error "Redis cluster is not ready or operational", op)
  else execRetry attempts statusAt op 1 (maxRetries - 1)

/-- The backoff delay in milliseconds taken after failed attempt `attempt`:
`Math.min(1000 * Math.pow(2, attempt - 1), 5000)`. -/
def retryDelayMs (attempt : Nat) : Nat := min (1000 * 2 ^ (attempt - 1)) 5000

/-- Attempt outcomes where the first try fails with an error that is neither a
connection nor a topology error, and the second try succeeds. -/
def c1Attempts : Nat → CmdResult
  | 1 => CmdResult.err "WRONGTYPE Operation against a key holding the wrong kind of value"
  | _ => CmdResult.ok "OK"

/-- Attempt outcomes where every try fails with the same topology error. -/
def c1AllFail : Nat → CmdResult := fun _ => CmdResult.err "CLUSTERDOWN The cluster is down"

/-! ## Cross-shard key enumeration (`getAllKeysFromCluster`, server.js 612–678) -/

/-- A master node as seen by the enumeration: its connection status, the
batches of keys its incremental SCAN returns on successive calls (bounded
COUNT per call; the cursor returns to the start value "0" after the last
batch), and, when `failAt = some i`, the index of the scan call that throws
instead of returning a batch. -/
structure MasterNode where
  status : String
  pages : List (List String)
  failAt : Option Nat
deriving DecidableEq, Repr

/-- The do-while SCAN loop run against one master: collect batches until the
cursor returns to "0" or a call throws.  Returns the keys collected before
any failure together with a flag recording whether the scan threw. -/
def scanPagesGo (failAt : Option Nat) :
    List (List String) → Nat → List String → List String × Bool
  | [], _, acc => (acc, false)
  | p :: rest, i, acc =>
    if failAt = some i then (acc, true)
    else scanPagesGo failAt rest (i + 1) (acc ++ p)

/-- All keys one master's scan yields, with its error flag. -/
def scanMaster (m : MasterNode) : List String × Bool :=
  scanPagesGo m.failAt m.pages 0 []

/-- `Set.prototype.add`: insertion-order deduplicating add. -/
def setAdd (acc : List String) (k : String) : List String :=
  if k ∈ acc then acc else acc ++ [k]

/-- `keys.forEach(key => allKeys.add(key))`. -/
def setAddAll (acc : List String) (ks : List String) : List String :=
  ks.foldl setAdd acc

/-- The contents of a JavaScript Set built by inserting `l` in order. -/
def listDedup (l : List String) : List String := setAddAll [] l

/-- The cluster as the enumeration sees it: whether the handle is a cluster
client, the result of `redisCluster.nodes('master')` (a call that can throw),
and the behaviour of the single node in fallback (non-cluster) mode. -/
structure ClusterModel where
  isCluster : Bool
  masters : Except String (List MasterNode)
  single : MasterNode
deriving Repr

/-- Embedding of `getAllKeysFromCluster(pattern)`.  The pattern is applied
server-side, so each master's `pages` are its replies for the requested
pattern.  Not ready → `[]`.  In cluster mode every master with status
"ready" is scanned (a non-ready master is skipped; a per-master throw is
caught, keeping the keys that master had already returned) and the union is
deduplicated by the shared Set.  A throw of `nodes('master')` itself, or of
the single-node scan in fallback mode, reaches the top-level catch → `[]`. -/
def getAllKeysFromCluster (ready : Bool) (cm : ClusterModel) : List String :=
  if !ready then []
  else if cm.isCluster then
    match cm.masters with
    | Except.error _ => []
    | Except.ok masters =>
      masters.foldl
        (fun acc m =>
          if m.status != "ready" then acc
          else setAddAll acc (scanMaster m).1) []
  else
    match scanMaster cm.single with
    | (_, true) => []
    | (keys, false) => listDedup keys

/-! ## Lemmas about the enumeration -/

theorem scanPagesGo_none (pages : List (List String)) :
    ∀ i acc, scanPagesGo none pages i acc = (acc ++ pages.flatten, false) := by
  induction pages with
  | nil => intro i acc; simp [scanPagesGo]
  | cons p rest ih =>
    intro i acc
    simp [scanPagesGo, ih, List.append_assoc]

theorem setAddAll_append (acc : List String) (l1 l2 : List String) :
    setAddAll acc (l1 ++ l2) = setAddAll (setAddAll acc l1) l2 :=
  List.foldl_append ..

theorem setAdd_nodup {acc : List String} (h : acc.Nodup) (k : String) :
    (setAdd acc k).Nodup := by
  unfold setAdd
  split
  · exact h
  · simp_all [List.nodup_append]

theorem setAddAll_nodup (ks : List String) :
    ∀ {acc : List String}, acc.Nodup → (setAddAll acc ks).Nodup := by
  induction ks with
  | nil => intro acc h; exact h
  | cons k rest ih =>
    intro acc h
    exact ih (setAdd_nodup h k)

theorem mem_setAdd (x k : String) (acc : List String) :
    x ∈ setAdd acc k ↔ x ∈ acc ∨ x = k := by
  unfold setAdd
  split
  · rename_i h
    constructor
    · exact Or.inl
    · rintro (hx | rfl)
      · exact hx
      · exact h
  · simp

theorem mem_setAddAll (x : String) (ks : List String) :
    ∀ acc, x ∈ setAddAll acc ks ↔ x ∈ acc ∨ x ∈ ks := by
  induction ks with
  | nil => intro acc; simp [setAddAll]
  | cons k rest ih =>
    intro acc
    show x ∈ setAddAll (setAdd acc k) rest ↔ _
    rw [ih, mem_setAdd]
    simp [or_assoc]

theorem mem_listDedup (x : String) (l : List String) : x ∈ listDedup l ↔ x ∈ l := by
  rw [listDedup, mem_setAddAll]
  simp

/-- The fold over the master list equals the deduplicated join of the
contributions of the ready masters. -/
theorem getAllKeys_foldl (masters : List MasterNode) :
    ∀ acc : List String,
      masters.foldl
        (fun acc m =>
          if m.status != "ready" then acc
          else setAddAll acc (scanMaster m).1) acc
      = setAddAll acc
          (((masters.filter (fun m => m.status == "ready")).map
            (fun m => (scanMaster m).1)).flatten) := by
  induction masters with
  | nil => intro acc; simp [setAddAll]
  | cons m rest ih =>
    intro acc
    rw [List.foldl_cons, ih]
    by_cases hm : m.status = "ready"
    · rw [List.filter_cons_of_pos (by simp [hm]), List.map_cons, List.flatten_cons,
        setAddAll_append]
      congr 1
      simp [hm]
    · rw [List.filter_cons_of_neg (by simp [hm])]
      congr 1
      simp [hm]

/-! ## The two stores -/

/-- A user record as stored in a Redis hash: every field a string (the POST
handler always writes all five fields). -/
structure UserData where
  name : String
  email : String
  phone : String
  address : String
  created_at : String
deriving DecidableEq, Repr

/-- The Redis keyspace: an association list from keys to hash records in
insertion order (a first write of a key appends, a rewrite replaces). -/
abbrev RedisStore := List (String × UserData)

/-- The keys of the keyspace (what a complete `user:*` enumeration sees). -/
def storeKeys (st : RedisStore) : List String := st.map Prod.fst

/-- HSET of a full record: overwrite in place when the key exists, append
otherwise. -/
def hsetFull : RedisStore → String → UserData → RedisStore
  | [], k, v => [(k, v)]
  | p :: rest, k, v =>
    if p.1 == k then (k, v) :: rest else p :: hsetFull rest k v

/-- DEL of a key. -/
def hdel (st : RedisStore) (k : String) : RedisStore :=
  st.filter (fun p => p.1 != k)

/-- HGETALL: the record at a key, `none` when absent (the handlers test the
returned object for emptiness). -/
def hgetall (st : RedisStore) (k : String) : Option UserData := st.lookup k

/-- A row of the MySQL `users` table (init.sql): auto-increment integer id,
NOT NULL name and email, email UNIQUE, nullable phone and address,
created_at set by the store at insert time. -/
structure MysqlRow where
  id : Nat
  name : String
  email : String
  phone : Option String
  address : Option String
  created_at : String
deriving DecidableEq, Repr

abbrev MysqlTable := List MysqlRow

/-- The INSERT issued by POST /api/mysql/users: the store enforces the UNIQUE
email constraint by failing with ER_DUP_ENTRY, otherwise appends the row
under the next auto-increment id with the parameters passed through
unchanged (an omitted phone/address is bound as NULL). -/
def mysqlInsertUser (tbl : MysqlTable) (nextId : Nat) (name email : String)
    (phone address : Option String) (now : String) : Except String MysqlTable :=
  if tbl.any (fun r => r.email == email) then Except.error "ER_DUP_ENTRY"
  else Except.ok (tbl ++ [⟨nextId, name, email, phone, address, now⟩])

/-- The `INSERT ... ON DUPLICATE KEY UPDATE` issued per record by
POST /api/redis-to-mysql: update name/phone/address of the row with the same
email, or insert a new row. -/
def mysqlUpsert (tbl : MysqlTable) (nextId : Nat) (r : UserData) (now : String) :
    MysqlTable × Nat :=
  if tbl.any (fun q => q.email == r.email) then
    (tbl.map (fun q =>
      if q.email == r.email then
        { q with name := r.name, phone := some r.phone, address := some r.address }
      else q), nextId)
  else (tbl ++ [⟨nextId, r.name, r.email, some r.phone, some r.address, now⟩], nextId + 1)

/-! ## Requests, responses and the readiness guard -/

/-- A JSON request body for the user endpoints; a field absent from the JSON
is `none`. -/
structure ReqBody where
  name : Option String
  email : Option String
  phone : Option String
  address : Option String
deriving DecidableEq, Repr

/-- A user object in a MySQL endpoint response (nullable/absent fields are
`none`; `created_at` is `none` when the response omits it). -/
structure MysqlUserJson where
  id : Nat
  name : String
  email : String
  phone : Option String
  address : Option String
  created_at : Option String
deriving DecidableEq, Repr

/-- A user object in a Redis endpoint response. -/
structure RedisUserJson where
  id : String
  name : String
  email : String
  phone : String
  address : String
  created_at : Option String
deriving DecidableEq, Repr

/-- A handler response: the status code and the parts of the JSON body the
claims observe. -/
structure ApiResponse where
  status : Nat
  error : Option String := none
  message : Option String := none
  mysqlUser : Option MysqlUserJson := none
  redisUser : Option RedisUserJson := none
  redisUsers : List RedisUserJson := []
  total : Nat := 0
  success : Nat := 0
  errors : Nat := 0
  duplicatesRemoved : Nat := 0
  idsReassigned : Nat := 0
  totalProcessed : Nat := 0
deriving DecidableEq, Repr

/-- The global adapter state the readiness check reads: whether the
module-level `redisCluster` handle exists, its connection status, and the
`isRedisOperational` flag. -/
structure AdapterState where
  hasCluster : Bool
  status : String
  operational : Bool
deriving DecidableEq, Repr

/-- `isRedisReady()` (server.js 51–53). -/
def isRedisReady (a : AdapterState) : Bool :=
  a.hasCluster && a.status == "ready" && a.operational

/-- The body every Redis endpoint answers with when the adapter is not
ready. -/
def notReadyResp : ApiResponse := { status := 503, error := some "Redis not ready" }

/-! ## MySQL handlers -/

/-- POST /api/mysql/users (server.js 955–970): validate name/email, insert
with phone/address passed through unchanged, map ER_DUP_ENTRY to 409.
`nextId` is the auto-increment id the store would assign and `now` the
timestamp it would record. -/
def mysqlPostUser (body : ReqBody) (tbl : MysqlTable) (nextId : Nat)
    (now : String) : ApiResponse × MysqlTable :=
  if !(truthy body.name) || !(truthy body.email) then
    ({ status := 400, error := some "Name and email required" }, tbl)
  else
    match mysqlInsertUser tbl nextId (body.name.getD "") (body.email.getD "")
        body.phone body.address now with
    | Except.error _ => ({ status := 409, error := some "Email already exists" }, tbl)
    | Except.ok tbl2 =>
      ({ status := 201,
         mysqlUser := some ⟨nextId, body.name.getD "", body.email.getD "",
           body.phone, body.address, none⟩ }, tbl2)

/-- GET /api/mysql/users/:id (944–953). -/
def mysqlGetUser (tbl : MysqlTable) (id : Nat) : ApiResponse :=
  match tbl.find? (fun r => r.id == id) with
  | none => { status := 404, error := some "User not found" }
  | some r =>
    { status := 200,
      mysqlUser := some ⟨r.id, r.name, r.email, r.phone, r.address, some r.created_at⟩ }

/-! ## Redis handlers

Each handler starts with the `isRedisReady()` guard.  Where a handler
enumerates `user:*` keys to read every record (duplicate-email checks,
cleanup, bulk copy), the enumeration is modelled as complete — the
healthy-cluster case; partial enumeration under degradation is covered by
the `getAllKeysFromCluster` theorems — and each per-key command as
succeeding unless an explicit outcome argument says otherwise. -/

/-- GET /api/redis/users (1004–1036): enumerate the `user:*` keys, fetch each
hash (a per-key failure is caught and that key skipped; an empty hash is
skipped), answer 200 with the list. -/
def redisGetUsers (a : AdapterState) (cm : ClusterModel) (st : RedisStore)
    (fetchFails : String → Bool) : ApiResponse :=
  if !(isRedisReady a) then notReadyResp
  else
    let keys := getAllKeysFromCluster (isRedisReady a) cm
    let users := keys.filterMap (fun k =>
      if fetchFails k then none
      else match hgetall st k with
        | none => none
        | some r =>
          some (⟨idPart k, r.name, r.email, r.phone, r.address, some r.created_at⟩
            : RedisUserJson))
    { status := 200, redisUsers := users }

/-- GET /api/redis/users/:id (1038–1049). -/
def redisGetUser (a : AdapterState) (st : RedisStore) (id : String) : ApiResponse :=
  if !(isRedisReady a) then notReadyResp
  else
    match hgetall st ("user:" ++ id) with
    | none => { status := 404, error := some "User not found" }
    | some r =>
      { status := 200,
        redisUser := some ⟨id, r.name, r.email, r.phone, r.address, some r.created_at⟩ }

/-- POST /api/redis/users (1051–1086): validate, linear-scan every record's
email, then write the new record under `user:<uuid>` with phone/address
defaulted to the empty string.  `newId` is the generated UUID. -/
def redisPostUser (a : AdapterState) (st : RedisStore) (body : ReqBody)
    (newId : String) (now : String) : ApiResponse × RedisStore :=
  if !(isRedisReady a) then (notReadyResp, st)
  else if !(truthy body.name) || !(truthy body.email) then
    ({ status := 400, error := some "Name and email required" }, st)
  else if st.any (fun p => p.2.email == body.email.getD "") then
    ({ status := 409, error := some "Email already exists" }, st)
  else
    let data : UserData := ⟨body.name.getD "", body.email.getD "",
      jsOr body.phone "", jsOr body.address "", now⟩
    ({ status := 201,
       redisUser := some ⟨newId, data.name, data.email, data.phone, data.address,
         some data.created_at⟩ },
     hsetFull st ("user:" ++ newId) data)

/-- PUT /api/redis/users/:id (1088–1121): validate, EXISTS check, duplicate
scan excluding the key itself, then HSET of the four mutable fields — the
hash keeps its stored `created_at` because the write does not name it. -/
def redisPutUser (a : AdapterState) (st : RedisStore) (id : String)
    (body : ReqBody) : ApiResponse × RedisStore :=
  if !(isRedisReady a) then (notReadyResp, st)
  else if !(truthy body.name) || !(truthy body.email) then
    ({ status := 400, error := some "Name and email required" }, st)
  else
    match hgetall st ("user:" ++ id) with
    | none => ({ status := 404, error := some "User not found" }, st)
    | some old =>
      if st.any (fun p => p.1 != "user:" ++ id && p.2.email == body.email.getD "") then
        ({ status := 409, error := some "Email already exists" }, st)
      else
        let data : UserData := ⟨body.name.getD "", body.email.getD "",
          jsOr body.phone "", jsOr body.address "", old.created_at⟩
        ({ status := 200,
           redisUser := some ⟨id, data.name, data.email, data.phone, data.address,
             none⟩ },
         hsetFull st ("user:" ++ id) data)

/-- DELETE /api/redis/users/:id (1123–1136): EXISTS check then DEL. -/
def redisDeleteUser (a : AdapterState) (st : RedisStore) (id : String) :
    ApiResponse × RedisStore :=
  if !(isRedisReady a) then (notReadyResp, st)
  else
    match hgetall st ("user:" ++ id) with
    | none => ({ status := 404, error := some "User not found" }, st)
    | some _ =>
      ({ status := 200, message := some "User deleted successfully" },
       hdel st ("user:" ++ id))

/-! ## Bulk copies and cleanup -/

/-- POST /api/mysql-to-redis (1139–1172): for every MySQL row, HSET the hash
`user:<row id>`; `hsetFails id` says whether that row's write throws (the
failure is caught and logged, the loop continues); the response reports the
row count and the number of successful writes. -/
def mysqlToRedisStep (hsetFails : Nat → Bool) (acc : RedisStore × Nat)
    (u : MysqlRow) : RedisStore × Nat :=
  if hsetFails u.id then acc
  else
    (hsetFull acc.1 ("user:" ++ natToDecString u.id)
      ⟨u.name, u.email, jsOr u.phone "", jsOr u.address "", u.created_at⟩,
     acc.2 + 1)

/-- POST /api/mysql-to-redis: the guard, the per-row loop, and the
`{message, total, success}` response. -/
def mysqlToRedis (a : AdapterState) (tbl : MysqlTable) (st : RedisStore)
    (hsetFails : Nat → Bool) : ApiResponse × RedisStore :=
  if !(isRedisReady a) then (notReadyResp, st)
  else
    let r := tbl.foldl (mysqlToRedisStep hsetFails) (st, 0)
    ({ status := 200,
       message := some ("Copied " ++ natToDecString r.2 ++ " users from MySQL to Redis"),
       total := tbl.length, success := r.2 }, r.1)

/-- The accumulator of the redis-to-mysql loop: the evolving table, the next
auto-increment id, and the copied/errored counters. -/
structure CopyAcc where
  tbl : MysqlTable
  nextId : Nat
  copied : Nat
  errs : Nat
deriving Repr

/-- One iteration of the redis-to-mysql loop over an enumerated key: a
fetch throw or an upsert throw is caught and counted in `errs`; an empty
hash is silently skipped; a successful upsert counts in `copied`. -/
def redisToMysqlStep (st : RedisStore) (fetchFails insertFails : String → Bool)
    (now : String) (acc : CopyAcc) (k : String) : CopyAcc :=
  if fetchFails k then { acc with errs := acc.errs + 1 }
  else
    match hgetall st k with
    | none => acc
    | some r =>
      if insertFails k then { acc with errs := acc.errs + 1 }
      else
        let t2 := mysqlUpsert acc.tbl acc.nextId r now
        { acc with tbl := t2.1, nextId := t2.2, copied := acc.copied + 1 }

/-- POST /api/redis-to-mysql (1175–1209). -/
def redisToMysql (a : AdapterState) (st : RedisStore) (tbl : MysqlTable)
    (fetchFails insertFails : String → Bool) (nextId : Nat) (now : String) :
    ApiResponse × MysqlTable :=
  if !(isRedisReady a) then (notReadyResp, tbl)
  else
    let keys := storeKeys st
    let res := keys.foldl (redisToMysqlStep st fetchFails insertFails now)
      ⟨tbl, nextId, 0, 0⟩
    ({ status := 200,
       message := some ("Copied " ++ natToDecString res.copied ++ " users from Redis to MySQL"),
       total := keys.length, success := res.copied, errors := res.errs }, res.tbl)

/-- The fetch stage of cleanup-duplicates (1222–1237): HGETALL every
enumerated key in order, skipping keys whose hash is empty. -/
def fetchAll (st : RedisStore) (ks : List String) : List (String × UserData) :=
  ks.filterMap (fun k => (hgetall st k).map (fun r => (k, r)))

/-- The duplicate classification of cleanup-duplicates: walk the fetched
records in order; the first record of each email goes to the kept list `us`,
a record whose email is already in `seen` goes to the duplicates list `ds`. -/
def classifyGo : List (String × UserData) → List String →
    List (String × UserData) → List (String × UserData) →
    List (String × UserData) × List (String × UserData)
  | [], _, us, ds => (us, ds)
  | (k, r) :: rest, seen, us, ds =>
    if r.email ∈ seen then classifyGo rest seen us (ds ++ [(k, r)])
    else classifyGo rest (seen ++ [r.email]) (us ++ [(k, r)]) ds

/-- The record object rebuilt by the re-keying step (1257–1263):
`phone/address || ''` and `created_at || now`. -/
def transformData (r : UserData) (now : String) : UserData :=
  ⟨r.name, r.email,
   (if r.phone.isEmpty then "" else r.phone),
   (if r.address.isEmpty then "" else r.address),
   (if r.created_at.isEmpty then now else r.created_at)⟩

/-- The re-keying loop of cleanup-duplicates (1250–1272): every kept record
whose id (`key.split(':')[1]`) matches `/^\d+$/` is written under a fresh
`user:<uuid>` key — `uuid c` is the c-th UUID generated — and its old key
deleted.  Returns the store and the reassigned count. -/
def rekeyGo (uuid : Nat → String) (now : String) :
    List (String × UserData) → RedisStore → Nat → RedisStore × Nat
  | [], st, _ => (st, 0)
  | (k, r) :: rest, st, c =>
    if isAllDigits (idPart k) then
      let res := rekeyGo uuid now rest
        (hdel (hsetFull st ("user:" ++ uuid c) (transformData r now)) k) (c + 1)
      (res.1, res.2 + 1)
    else rekeyGo uuid now rest st c

/-- POST /api/redis/cleanup-duplicates (1212–1284): enumerate, classify,
delete the duplicates, then re-key the kept records with numeric ids. -/
def cleanupDuplicates (a : AdapterState) (st : RedisStore) (uuid : Nat → String)
    (now : String) : ApiResponse × RedisStore :=
  if !(isRedisReady a) then (notReadyResp, st)
  else
    let keys := storeKeys st
    let cls := classifyGo (fetchAll st keys) [] [] []
    let st1 := cls.2.foldl (fun s d => hdel s d.1) st
    let res := rekeyGo uuid now cls.1 st1 0
    ({ status := 200, message := some "Cleanup completed",
       duplicatesRemoved := cls.2.length, idsReassigned := res.2,
       totalProcessed := keys.length }, res.1)

/-! ## Startup: cluster wait, init, fallback (server.js 177–289, 431–609,
712–801, 804–821) -/

/-- What one polling iteration of `waitForClusterReady` observes: whether
every probed node was healthy, the ready-node count, and the slot total
counted from the first OK node. -/
structure CheckResult where
  allNodesReady : Bool
  readyNodes : Nat
  slotsAssigned : Nat
deriving DecidableEq, Repr

/-- The readiness condition of one iteration (line 272): every node healthy,
at least one ready node, and at least 16384 slots assigned. -/
def checkPasses (c : CheckResult) : Bool :=
  c.allNodesReady && decide (0 < c.readyNodes) && decide (16384 ≤ c.slotsAssigned)

/-- The polling loop of `waitForClusterReady`: probe, and while the elapsed
time stays under the total timeout, wait one interval and probe again.
`checks i` is the outcome of the i-th probe; `fuel` the number of probes the
wall clock still allows. -/
def waitLoop (checks : Nat → CheckResult) (i : Nat) : Nat → Bool
  | 0 => false
  | fuel + 1 => if checkPasses (checks i) then true else waitLoop checks (i + 1) fuel

/-- `waitForClusterReady()` with the default parameters: a 600000 ms total
timeout polled every 5000 ms bounds the loop to 120 probes. -/
def waitForClusterReady (checks : Nat → CheckResult) : Bool :=
  waitLoop checks 1 120

/-- `initRedis(maxAttempts = 3)` at the granularity the startup claim
observes: diagnose; if the cluster is not ready, wait for it (a timeout
throws); then up to three connection attempts with increasing delay
(`connOk i` = attempt i reaches a stable, smoke-tested connection); three
failures throw. -/
def initRedis (diagReady : Bool) (checks : Nat → CheckResult)
    (connOk : Nat → Bool) : Except String Unit :=
  if !diagReady && !waitForClusterReady checks then
    Except.error "Redis cluster did not become ready within the timeout period"
  else if connOk 1 || connOk 2 || connOk 3 then Except.ok ()
  else Except.error "Redis connection failed after 3 attempts"

/-- The startup sequence in the `app.listen` callback: try `initRedis`; on
failure try the single-node fallback (`initRedisFallback`); the process keeps
running in every case.  Returns (server running, adapter ready). -/
def serverStartup (diagReady : Bool) (checks : Nat → CheckResult)
    (connOk : Nat → Bool) (fallbackOk : Bool) : Bool × Bool :=
  match initRedis diagReady checks connOk with
  | Except.ok _ => (true, true)
  | Except.error _ => (true, fallbackOk)

/-- POST /api/redis/reconnect (1327–1343): re-runs `initRedis`; the adapter
is ready afterwards iff that run succeeds. -/
def reconnectEndpoint (diagReady : Bool) (checks : Nat → CheckResult)
    (connOk : Nat → Bool) : Bool :=
  match initRedis diagReady checks connOk with
  | Except.ok _ => true
  | Except.error _ => false

/-- A probe sequence that never observes full shard coverage. -/
def c8FailChecks : Nat → CheckResult := fun _ => ⟨false, 0, 0⟩

/-! ## Direct characterizations of the cleanup phases

These are not part of the server; they restate the accumulator loops of
cleanup-duplicates as structural recursions, so that the behaviour of the
endpoint can be proved against them. -/

/-- The records the classification keeps: the first record of each email not
already in `seen`. -/
def keepList (seen : List String) : List (String × UserData) → List (String × UserData)
  | [] => []
  | p :: rest =>
    if p.2.email ∈ seen then keepList seen rest
    else p :: keepList (seen ++ [p.2.email]) rest

/-- The records the classification marks as duplicates. -/
def dupList (seen : List String) : List (String × UserData) → List (String × UserData)
  | [] => []
  | p :: rest =>
    if p.2.email ∈ seen then p :: dupList seen rest
    else dupList (seen ++ [p.2.email]) rest

/-- The fresh entries the re-keying loop appends, in order: one per kept
record with an all-digits id, keyed by the successive generated UUIDs. -/
def rekeyOut (uuid : Nat → String) (now : String) :
    List (String × UserData) → Nat → List (String × UserData)
  | [], _ => []
  | (k, r) :: rest, c =>
    if isAllDigits (idPart k) then
      ("user:" ++ uuid c, transformData r now) :: rekeyOut uuid now rest (c + 1)
    else rekeyOut uuid now rest c

/-! ## Outcome classes of the redis-to-mysql loop -/

/-- A key whose record is fetched, non-empty and upserted without a throw —
counted in `copied`. -/
def r2mOk (st : RedisStore) (ff insf : String → Bool) (k : String) : Bool :=
  !ff k && (hgetall st k).isSome && !insf k

/-- A key whose fetch throws, or whose non-empty record's upsert throws —
counted in `errors`. -/
def r2mErr (st : RedisStore) (ff insf : String → Bool) (k : String) : Bool :=
  ff k || ((hgetall st k).isSome && insf k)

/-- A key fetched without a throw but holding an empty hash — silently
skipped by the loop. -/
def r2mSkip (st : RedisStore) (ff : String → Bool) (k : String) : Bool :=
  !ff k && (hgetall st k).isNone

/-! ## Concrete inputs used by counterexamples and witnesses -/

/-- The request body POST {name "Ann", email "ann@x.com"} with phone and
address omitted. -/
def annBody : ReqBody := ⟨some "Ann", some "ann@x.com", none, none⟩

/-- Two MySQL rows, ids 1 and 2. -/
def c6Tbl : MysqlTable :=
  [⟨1, "A", "a@x.com", none, none, "t0"⟩, ⟨2, "B", "b@x.com", none, none, "t0"⟩]

/-- A per-row HSET outcome where only row 1's write throws. -/
def c6Hf : Nat → Bool := fun id => id == 1

/-- Two Redis records under numeric keys. -/
def c6St : RedisStore :=
  [("user:1", ⟨"A", "a@x.com", "", "", "t0"⟩), ("user:2", ⟨"B", "b@x.com", "", "", "t0"⟩)]

/-- A per-key fetch outcome where only the fetch of "user:1" throws. -/
def c6Ff : String → Bool := fun k => k == "user:1"

/-- Three Redis records: two sharing an email (one under a numeric key), the
third under a non-numeric key. -/
def c5St : RedisStore :=
  [("user:1", ⟨"A", "a@x.com", "", "", "t0"⟩),
   ("user:7", ⟨"B", "a@x.com", "", "", "t1"⟩),
   ("user:abc", ⟨"C", "c@x.com", "", "", "t2"⟩)]

/-- A concrete UUID supply, distinct and non-numeric on the indices used. -/
def c5Uuid : Nat → String
  | 0 => "g0"
  | 1 => "g1"
  | 2 => "g2"
  | _ => "gx"

/-- Two MySQL rows with auto-increment ids 3 and 12. -/
def c9Tbl : MysqlTable :=
  [⟨3, "A", "a@x.com", none, none, "t0"⟩,
   ⟨12, "B", "b@x.com", some "5", none, "t0"⟩]

/-- Two ready masters, the second of which throws on its first scan call. -/
def c10Masters : List MasterNode :=
  [⟨"ready", [["user:1"], ["user:2"]], none⟩,
   ⟨"ready", [["user:9"]], some 0⟩]

/-- A single-node model whose scan throws immediately. -/
def c10Sn : MasterNode := ⟨"ready", [["user:1"]], some 0⟩

/-! ## Store lemmas -/

theorem hgetall_hsetFull_self (st : RedisStore) (k : String) (v : UserData) :
    hgetall (hsetFull st k v) k = some v := by
  induction st with
  | nil => simp [hsetFull, hgetall, List.lookup]
  | cons p rest ih =>
    by_cases h : p.1 = k
    · simp [hsetFull, hgetall, h, List.lookup]
    · have hb : (k == p.1) = false := beq_eq_false_iff_ne.mpr (Ne.symm h)
      have hb2 : (p.1 == k) = false := beq_eq_false_iff_ne.mpr h
      simpa [hsetFull, hgetall, hb2, List.lookup, hb] using ih

theorem find?_append_of_none {p : MysqlRow → Bool} {l1 : MysqlTable}
    (h : l1.find? p = none) (l2 : MysqlTable) :
    (l1 ++ l2).find? p = l2.find? p := by
  induction l1 with
  | nil => simp
  | cons r rest ih =>
    cases hp : p r with
    | true => simp [List.find?_cons, hp] at h
    | false =>
      simp only [List.find?_cons, hp] at h
      simp only [List.cons_append, List.find?_cons, hp]
      exact ih h

theorem mysqlToRedis_foldl_success (hf : Nat → Bool) (tbl : MysqlTable) :
    ∀ (st : RedisStore) (c : Nat),
      (tbl.foldl (mysqlToRedisStep hf) (st, c)).2
        = c + tbl.countP (fun u => !hf u.id) := by
  induction tbl with
  | nil => intro st c; simp
  | cons u rest ih =>
    intro st c
    rw [List.foldl_cons]
    by_cases hu : hf u.id
    · simp only [mysqlToRedisStep, hu, if_pos]
      rw [ih, List.countP_cons]
      simp [hu]
    · simp only [mysqlToRedisStep, hu, if_neg, Bool.not_false]
      rw [ih, List.countP_cons]
      simp [hu]
      omega

theorem countP_hf_partition (hf : Nat → Bool) (tbl : MysqlTable) :
    tbl.length = tbl.countP (fun u => !hf u.id) + tbl.countP (fun u => hf u.id) := by
  induction tbl with
  | nil => simp
  | cons u rest ih =>
    simp only [List.length_cons, List.countP_cons]
    by_cases hu : hf u.id <;> simp [hu] <;> omega

theorem redisToMysql_foldl_copied (st : RedisStore) (ff insf : String → Bool)
    (now : String) (keys : List String) :
    ∀ acc : CopyAcc,
      (keys.foldl (redisToMysqlStep st ff insf now) acc).copied
        = acc.copied + keys.countP (r2mOk st ff insf) := by
  induction keys with
  | nil => intro acc; simp
  | cons k rest ih =>
    intro acc
    rw [List.foldl_cons, List.countP_cons]
    cases hff : ff k <;> cases hk : hgetall st k <;> cases hi : insf k <;>
      simp [redisToMysqlStep, hff, hk, hi, ih, r2mOk] <;> omega

theorem redisToMysql_foldl_errs (st : RedisStore) (ff insf : String → Bool)
    (now : String) (keys : List String) :
    ∀ acc : CopyAcc,
      (keys.foldl (redisToMysqlStep st ff insf now) acc).errs
        = acc.errs + keys.countP (r2mErr st ff insf) := by
  induction keys with
  | nil => intro acc; simp
  | cons k rest ih =>
    intro acc
    rw [List.foldl_cons, List.countP_cons]
    cases hff : ff k <;> cases hk : hgetall st k <;> cases hi : insf k <;>
      simp [redisToMysqlStep, hff, hk, hi, ih, r2mErr] <;> omega

theorem r2m_partition (st : RedisStore) (ff insf : String → Bool)
    (keys : List String) :
    keys.length = keys.countP (r2mOk st ff insf) + keys.countP (r2mErr st ff insf)
      + keys.countP (r2mSkip st ff) := by
  induction keys with
  | nil => simp
  | cons k rest ih =>
    simp only [List.length_cons, List.countP_cons]
    cases hff : ff k <;> cases hk : hgetall st k <;> cases hi : insf k <;>
      simp [r2mOk, r2mErr, r2mSkip, hff, hk, hi, ih] <;> omega

/-! ## Cleanup lemmas -/

theorem storeKeys_append (A B : RedisStore) :
    storeKeys (A ++ B) = storeKeys A ++ storeKeys B :=
  List.map_append ..

theorem hdel_append (A B : RedisStore) (k : String) :
    hdel (A ++ B) k = hdel A k ++ hdel B k :=
  List.filter_append ..

theorem hdel_eq_self_of_not_mem (st : RedisStore) (k : String)
    (h : k ∉ storeKeys st) : hdel st k = st := by
  rw [hdel, List.filter_eq_self]
  intro p hp
  have hm : p.1 ∈ storeKeys st := List.mem_map_of_mem _ hp
  simp only [bne_iff_ne, ne_eq]
  intro heq
  exact h (heq ▸ hm)

theorem hsetFull_append_of_not_mem (st : RedisStore) (k : String) (v : UserData)
    (h : k ∉ storeKeys st) : hsetFull st k v = st ++ [(k, v)] := by
  induction st with
  | nil => rfl
  | cons p rest ih =>
    have h1 : k ≠ p.1 := by
      intro heq
      exact h (by simp [storeKeys, heq])
    have h2 : k ∉ storeKeys rest := fun hm => h (by simp [storeKeys] at hm ⊢; right; exact hm)
    have hb : (p.1 == k) = false := beq_eq_false_iff_ne.mpr (Ne.symm h1)
    simp [hsetFull, hb, ih h2]

theorem userKey_inj {a b : String} (h : "user:" ++ a = "user:" ++ b) : a = b := by
  have hd := congrArg String.data h
  simp only [String.data_append] at hd
  exact String.ext (List.append_cancel_left hd)

theorem fetchAll_self (st : RedisStore) (hnd : (storeKeys st).Nodup) :
    fetchAll st (storeKeys st) = st := by
  induction st with
  | nil => rfl
  | cons p rest ih =>
    have hnd' : (p.1 :: storeKeys rest).Nodup := hnd
    have hk : p.1 ∉ storeKeys rest := (List.nodup_cons.mp hnd').1
    have hnd2 : (storeKeys rest).Nodup := (List.nodup_cons.mp hnd').2
    show fetchAll (p :: rest) (p.1 :: storeKeys rest) = p :: rest
    have hself : hgetall (p :: rest) p.1 = some p.2 := by
      simp [hgetall, List.lookup]
    have hcongr : ∀ k ∈ storeKeys rest,
        (hgetall (p :: rest) k).map (fun r => (k, r))
          = (hgetall rest k).map (fun r => (k, r)) := by
      intro k hkm
      have : k ≠ p.1 := fun heq => hk (heq ▸ hkm)
      have hb : (k == p.1) = false := beq_eq_false_iff_ne.mpr this
      simp [hgetall, List.lookup, hb]
    calc fetchAll (p :: rest) (p.1 :: storeKeys rest)
        = (p.1, p.2) :: fetchAll (p :: rest) (storeKeys rest) := by
          simp [fetchAll, hself]
      _ = (p.1, p.2) :: fetchAll rest (storeKeys rest) := by
          unfold fetchAll
          rw [List.filterMap_congr hcongr]
      _ = p :: rest := by rw [ih hnd2]

theorem classifyGo_eq :
    ∀ (l : List (String × UserData)) (seen : List String)
      (us ds : List (String × UserData)),
      classifyGo l seen us ds = (us ++ keepList seen l, ds ++ dupList seen l) := by
  intro l
  induction l with
  | nil => intro seen us ds; simp [classifyGo, keepList, dupList]
  | cons p rest ih =>
    intro seen us ds
    by_cases hm : p.2.email ∈ seen
    · simp [classifyGo, keepList, dupList, hm, ih]
    · simp [classifyGo, keepList, dupList, hm, ih]

theorem keepList_sublist (seen : List String) :
    ∀ l : List (String × UserData), (keepList seen l).Sublist l := by
  intro l
  induction l generalizing seen with
  | nil => simp [keepList]
  | cons p rest ih =>
    by_cases hm : p.2.email ∈ seen
    · simp only [keepList, hm, if_pos]
      exact (ih seen).cons p
    · simp only [keepList, hm, if_neg, not_false_iff]
      exact (ih (seen ++ [p.2.email])).cons₂ p

theorem dupList_subset (seen : List String) :
    ∀ l : List (String × UserData), ∀ p ∈ dupList seen l, p ∈ l := by
  intro l
  induction l generalizing seen with
  | nil => simp [dupList]
  | cons q rest ih =>
    intro p hp
    by_cases hm : q.2.email ∈ seen
    · simp only [dupList, hm, if_pos, List.mem_cons] at hp
      rcases hp with rfl | hp
      · exact List.mem_cons_self ..
      · exact List.mem_cons_of_mem _ (ih seen p hp)
    · simp only [dupList, hm, if_neg, not_false_iff] at hp
      exact List.mem_cons_of_mem _ (ih (seen ++ [q.2.email]) p hp)

theorem foldl_hdel_eq_filter :
    ∀ (ds : List (String × UserData)) (st : RedisStore),
      ds.foldl (fun s d => hdel s d.1) st
        = st.filter (fun p => !((ds.map Prod.fst).contains p.1)) := by
  intro ds
  induction ds with
  | nil => intro st; simp
  | cons d rest ih =>
    intro st
    rw [List.foldl_cons, ih, hdel, List.filter_filter]
    apply List.filter_congr
    intro p _
    by_cases h1 : p.1 = d.1
    · simp [h1]
    · have hb : (p.1 == d.1) = false := beq_eq_false_iff_ne.mpr h1
      simp [h1, hb]

theorem filter_not_dup :
    ∀ (l : List (String × UserData)), (l.map Prod.fst).Nodup →
      ∀ seen : List String,
        l.filter (fun p => !(((dupList seen l).map Prod.fst).contains p.1))
          = keepList seen l := by
  intro l
  induction l with
  | nil => intro _ seen; simp [dupList, keepList]
  | cons p rest ih =>
    intro hnd seen
    have hnd' : (p.1 :: rest.map Prod.fst).Nodup := hnd
    have hk : p.1 ∉ rest.map Prod.fst := (List.nodup_cons.mp hnd').1
    have hnd2 : (rest.map Prod.fst).Nodup := (List.nodup_cons.mp hnd').2
    by_cases hm : p.2.email ∈ seen
    · -- p is a duplicate: its key heads the duplicate key list
      rw [keepList, if_pos hm, dupList, if_pos hm, List.map_cons]
      have hcontains : ((p.1 :: (dupList seen rest).map Prod.fst).contains p.1) = true := by
        rw [List.contains_cons]
        simp
      rw [List.filter_cons_of_neg (by rw [hcontains]; simp)]
      rw [← ih hnd2 seen]
      apply List.filter_congr
      intro q hq
      have hq1 : q.1 ∈ rest.map Prod.fst := List.mem_map_of_mem _ hq
      have hne : q.1 ≠ p.1 := fun heq => hk (by rw [← heq]; exact hq1)
      rw [List.contains_cons]
      simp [beq_eq_false_iff_ne.mpr hne]
    · -- p is kept: its key is in no duplicate key list
      rw [keepList, if_neg hm, dupList, if_neg hm]
      have hnotdup : ((dupList (seen ++ [p.2.email]) rest).map Prod.fst).contains p.1 = false := by
        rw [List.contains_eq_any_beq, List.any_eq_false]
        intro x hx
        rcases List.mem_map.mp hx with ⟨q, hq, rfl⟩
        have hq1 : q.1 ∈ rest.map Prod.fst :=
          List.mem_map_of_mem _ (dupList_subset _ _ q hq)
        intro hbeq
        exact hk (by rw [eq_of_beq hbeq]; exact hq1)
      rw [List.filter_cons_of_pos (by rw [hnotdup]; simp)]
      rw [ih hnd2 (seen ++ [p.2.email])]

theorem count_keepList (e : String) :
    ∀ (l : List (String × UserData)) (seen : List String),
      (keepList seen l).countP (fun p => p.2.email == e)
        = if e ∈ seen then 0
          else if l.any (fun p => p.2.email == e) then 1 else 0 := by
  intro l
  induction l with
  | nil => intro seen; simp [keepList]
  | cons p rest ih =>
    intro seen
    by_cases hm : p.2.email ∈ seen
    · rw [keepList, if_pos hm, ih, List.any_cons]
      by_cases he : e ∈ seen
      · simp [he]
      · have hb : (p.2.email == e) = false :=
          beq_eq_false_iff_ne.mpr (fun heq => he (heq ▸ hm))
        rw [hb, Bool.false_or]
    · rw [keepList, if_neg hm, List.countP_cons, ih, List.any_cons]
      by_cases hpe : p.2.email = e
      · have he : e ∉ seen := hpe ▸ hm
        have h1 : e ∈ seen ++ [p.2.email] := List.mem_append.mpr (Or.inr (by simp [hpe]))
        rw [if_pos h1, if_neg he, hpe]
        simp
      · have hb : (p.2.email == e) = false := beq_eq_false_iff_ne.mpr hpe
        rw [hb]
        by_cases he : e ∈ seen
        · rw [if_pos (List.mem_append.mpr (Or.inl he)), if_pos he]
          simp
        · have h2 : e ∉ seen ++ [p.2.email] := by
            rw [List.mem_append]
            rintro (hc | hc)
            · exact he hc
            · simp at hc
              exact hpe hc.symm
          rw [if_neg h2, if_neg he, Bool.false_or]
          simp

theorem keepList_find? :
    ∀ (l : List (String × UserData)) (seen : List String)
      (p : String × UserData), p ∈ keepList seen l →
      p.2.email ∉ seen ∧ l.find? (fun q => q.2.email == p.2.email) = some p := by
  intro l
  induction l with
  | nil => intro seen p hp; simp [keepList] at hp
  | cons q rest ih =>
    intro seen p hp
    by_cases hm : q.2.email ∈ seen
    · rw [keepList, if_pos hm] at hp
      obtain ⟨hns, hfind⟩ := ih seen p hp
      have hne : q.2.email ≠ p.2.email := fun heq => hns (heq ▸ hm)
      refine ⟨hns, ?_⟩
      simp only [List.find?_cons, beq_eq_false_iff_ne.mpr hne]
      exact hfind
    · rw [keepList, if_neg hm] at hp
      rcases List.mem_cons.mp hp with rfl | hp'
      · refine ⟨hm, ?_⟩
        simp [List.find?_cons]
      · obtain ⟨hns, hfind⟩ := ih (seen ++ [q.2.email]) p hp'
        have hns2 : p.2.email ∉ seen := fun h => hns (List.mem_append.mpr (Or.inl h))
        have hne : q.2.email ≠ p.2.email := by
          intro heq
          exact hns (List.mem_append.mpr (Or.inr (by simp [heq])))
        refine ⟨hns2, ?_⟩
        simp only [List.find?_cons, beq_eq_false_iff_ne.mpr hne]
        exact hfind

theorem storeKeys_cons (p : String × UserData) (l : RedisStore) :
    storeKeys (p :: l) = p.1 :: storeKeys l := rfl

theorem hdel_cons_self (k : String) (r : UserData) (l : RedisStore) :
    hdel ((k, r) :: l) k = hdel l k := by
  simp [hdel]

/-- The re-keying loop, characterized.  The store is `K0 ++ R ++ F`: `K0` the
already-processed kept entries with non-numeric ids, `R` the entries still to
process, `F` the fresh entries appended so far; the UUIDs consumed from
counter `c` on are fresh for the store and pairwise distinct.  The loop
leaves the non-numeric entries in place, appends one fresh entry per numeric
entry, and reports the number of re-keyed records. -/
theorem rekeyGo_eq (uuid : Nat → String) (now : String) :
    ∀ (R K0 F : List (String × UserData)) (c : Nat),
      (storeKeys (K0 ++ R ++ F)).Nodup →
      (∀ i, c ≤ i → i < c + R.length →
        ("user:" ++ uuid i) ∉ storeKeys (K0 ++ R ++ F)) →
      (∀ i j, c ≤ i → i < c + R.length → c ≤ j → j < c + R.length →
        uuid i = uuid j → i = j) →
      rekeyGo uuid now R (K0 ++ R ++ F) c
        = (K0 ++ R.filter (fun p => !isAllDigits (idPart p.1)) ++ F
            ++ rekeyOut uuid now R c,
           R.countP (fun p => isAllDigits (idPart p.1))) := by
  intro R
  induction R with
  | nil =>
    intro K0 F c _ _ _
    simp [rekeyGo, rekeyOut]
  | cons p R' ih =>
    intro K0 F c hnd hfresh hinj
    obtain ⟨k, r⟩ := p
    have hsk : storeKeys (K0 ++ (k, r) :: R' ++ F)
        = storeKeys K0 ++ (k :: storeKeys R' ++ storeKeys F) := by
      simp [storeKeys, List.append_assoc]
    have hnd' : (storeKeys K0 ++ k :: (storeKeys R' ++ storeKeys F)).Nodup := by
      rw [hsk] at hnd
      simpa using hnd
    have hmid := List.nodup_middle.mp hnd'
    have hkmem : k ∉ storeKeys K0 ++ (storeKeys R' ++ storeKeys F) :=
      (List.nodup_cons.mp hmid).1
    have hknd : (storeKeys K0 ++ (storeKeys R' ++ storeKeys F)).Nodup :=
      (List.nodup_cons.mp hmid).2
    have hkK0 : k ∉ storeKeys K0 := fun h => hkmem (List.mem_append.mpr (Or.inl h))
    have hkR' : k ∉ storeKeys R' := fun h =>
      hkmem (List.mem_append.mpr (Or.inr (List.mem_append.mpr (Or.inl h))))
    have hkF : k ∉ storeKeys F := fun h =>
      hkmem (List.mem_append.mpr (Or.inr (List.mem_append.mpr (Or.inr h))))
    have hkstore : k ∈ storeKeys (K0 ++ (k, r) :: R' ++ F) := by
      rw [hsk]
      exact List.mem_append.mpr (Or.inr (List.mem_cons_self ..))
    by_cases hd : isAllDigits (idPart k) = true
    · -- numeric id: re-keyed under the fresh key
      have hnk : ("user:" ++ uuid c) ∉ storeKeys (K0 ++ (k, r) :: R' ++ F) :=
        hfresh c (Nat.le_refl c) (by simp)
      have hnkne : ("user:" ++ uuid c) ≠ k := fun h => hnk (h ▸ hkstore)
      have hset : hsetFull (K0 ++ (k, r) :: R' ++ F) ("user:" ++ uuid c)
          (transformData r now)
          = K0 ++ (k, r) :: R' ++ F ++ [("user:" ++ uuid c, transformData r now)] :=
        hsetFull_append_of_not_mem _ _ _ hnk
      have hdelstep : hdel (K0 ++ (k, r) :: R' ++ F
            ++ [("user:" ++ uuid c, transformData r now)]) k
          = K0 ++ R' ++ (F ++ [("user:" ++ uuid c, transformData r now)]) := by
        rw [hdel_append, hdel_append, hdel_append, hdel_cons_self]
        rw [hdel_eq_self_of_not_mem K0 k hkK0, hdel_eq_self_of_not_mem R' k hkR',
          hdel_eq_self_of_not_mem F k hkF,
          hdel_eq_self_of_not_mem [("user:" ++ uuid c, transformData r now)] k
            (by simpa [storeKeys] using Ne.symm hnkne)]
        simp [List.append_assoc]
      have hnk2 : ("user:" ++ uuid c)
          ∉ storeKeys K0 ++ (storeKeys R' ++ storeKeys F) := by
        intro h
        apply hnk
        rw [hsk]
        rcases List.mem_append.mp h with h1 | h1
        · exact List.mem_append.mpr (Or.inl h1)
        · exact List.mem_append.mpr (Or.inr (List.mem_cons_of_mem _ h1))
      have hndnew : (storeKeys (K0 ++ R'
          ++ (F ++ [("user:" ++ uuid c, transformData r now)]))).Nodup := by
        have h1 : ((storeKeys K0 ++ (storeKeys R' ++ storeKeys F))
            ++ ["user:" ++ uuid c]).Nodup :=
          hknd.append (List.nodup_singleton _)
            (fun a ha hb => by
              simp at hb
              exact hnk2 (hb ▸ ha))
        simpa [storeKeys, List.append_assoc] using h1
      have hfreshnew : ∀ i, c + 1 ≤ i → i < c + 1 + R'.length →
          ("user:" ++ uuid i) ∉ storeKeys (K0 ++ R'
            ++ (F ++ [("user:" ++ uuid c, transformData r now)])) := by
        intro i hi1 hi2 h
        have hold := hfresh i (by omega) (by simp; omega)
        rw [hsk] at hold
        have hne : ("user:" ++ uuid i) ≠ ("user:" ++ uuid c) := fun he => by
          have : i = c :=
            hinj i c (by omega) (by simp; omega) (Nat.le_refl c) (by simp)
              (userKey_inj he)
          omega
        simp only [storeKeys, List.map_append, List.map_cons, List.map_nil,
          List.mem_append, List.mem_cons, List.not_mem_nil, or_false] at h hold
        tauto
      have hinjnew : ∀ i j, c + 1 ≤ i → i < c + 1 + R'.length → c + 1 ≤ j →
          j < c + 1 + R'.length → uuid i = uuid j → i = j := by
        intro i j hi1 hi2 hj1 hj2 he
        exact hinj i j (by omega) (by simp; omega) (by omega) (by simp; omega) he
      have hres := ih K0 (F ++ [("user:" ++ uuid c, transformData r now)]) (c + 1)
        hndnew hfreshnew hinjnew
      simp only [rekeyGo, if_pos hd]
      rw [hset, hdelstep, hres]
      simp [rekeyOut, if_pos hd, hd, List.append_assoc]
    · -- non-numeric id: left in place
      have hres := ih (K0 ++ [(k, r)]) F c
        (by
          have h1 : (K0 ++ [(k, r)]) ++ R' ++ F = K0 ++ (k, r) :: R' ++ F := by
            simp [List.append_assoc]
          rw [h1]
          exact hnd)
        (by
          intro i hi1 hi2 h
          apply hfresh i hi1 (by simp; omega)
          have h1 : (K0 ++ [(k, r)]) ++ R' ++ F = K0 ++ (k, r) :: R' ++ F := by
            simp [List.append_assoc]
          rw [← h1]
          exact h)
        (fun i j hi1 hi2 hj1 hj2 he =>
          hinj i j hi1 (by simp; omega) hj1 (by simp; omega) he)
      have hstore : K0 ++ (k, r) :: R' ++ F = (K0 ++ [(k, r)]) ++ R' ++ F := by
        simp [List.append_assoc]
      simp only [rekeyGo, if_neg hd]
      rw [hstore, hres]
      simp [rekeyOut, if_neg hd, eq_false_of_ne_true hd, List.append_assoc]

theorem transformData_fields (r : UserData) (now : String)
    (hca : r.created_at.isEmpty = false) :
    transformData r now = r := by
  unfold transformData
  cases r with
  | mk n e p ad ca =>
    simp only at hca ⊢
    rw [hca]
    congr 1
    · by_cases hp : p.isEmpty
      · rw [if_pos hp, (String.isEmpty_iff p).mp hp]
      · rw [if_neg hp]
    · by_cases ha : ad.isEmpty
      · rw [if_pos ha, (String.isEmpty_iff ad).mp ha]
      · rw [if_neg ha]

theorem countP_email_rekeyOut (uuid : Nat → String) (now e : String) :
    ∀ (R : List (String × UserData)) (c : Nat),
      (rekeyOut uuid now R c).countP (fun p => p.2.email == e)
        = (R.filter (fun p => isAllDigits (idPart p.1))).countP
            (fun p => p.2.email == e) := by
  intro R
  induction R with
  | nil => intro c; simp [rekeyOut]
  | cons p rest ih =>
    intro c
    obtain ⟨k, r⟩ := p
    by_cases hd : isAllDigits (idPart k) = true
    · simp [rekeyOut, hd, transformData, ih, List.countP_cons]
    · simp [rekeyOut, hd, ih, eq_false_of_ne_true hd]

theorem countP_filter_split (p q : (String × UserData) → Bool) :
    ∀ l : List (String × UserData),
      l.countP p = (l.filter q).countP p + (l.filter (fun x => !q x)).countP p := by
  intro l
  induction l with
  | nil => simp
  | cons a rest ih =>
    cases hq : q a <;> cases hp : p a <;>
      simp [List.countP_cons, hq, hp, ih] <;> omega

theorem mem_rekeyOut (uuid : Nat → String) (now : String) :
    ∀ (R : List (String × UserData)) (c : Nat) (q : String × UserData),
      q ∈ rekeyOut uuid now R c →
      ∃ p ∈ R, isAllDigits (idPart p.1) = true ∧
        ∃ i, c ≤ i ∧ i < c + R.length ∧
          q = ("user:" ++ uuid i, transformData p.2 now) := by
  intro R
  induction R with
  | nil => intro c q hq; simp [rekeyOut] at hq
  | cons p rest ih =>
    intro c q hq
    obtain ⟨k, r⟩ := p
    by_cases hd : isAllDigits (idPart k) = true
    · rw [rekeyOut, if_pos hd] at hq
      rcases List.mem_cons.mp hq with rfl | hq'
      · exact ⟨(k, r), List.mem_cons_self .., hd,
          c, Nat.le_refl c, by simp, rfl⟩
      · obtain ⟨p', hp', hd', i, hi1, hi2, hqe⟩ := ih (c + 1) q hq'
        exact ⟨p', List.mem_cons_of_mem _ hp', hd', i, by omega, by simp; omega, hqe⟩
    · rw [rekeyOut, if_neg hd] at hq
      obtain ⟨p', hp', hd', i, hi1, hi2, hqe⟩ := ih c q hq
      exact ⟨p', List.mem_cons_of_mem _ hp', hd', i, hi1, by simp; omega, hqe⟩

/-- cleanup-duplicates, characterized: under a ready adapter, distinct keys
and fresh pairwise-distinct UUIDs, the endpoint keeps the first record of
each email, leaves the kept non-numeric entries in place, appends one fresh
`user:<uuid>` entry per kept numeric entry, and reports the duplicate and
re-key counts. -/
theorem cleanupDuplicates_eq (a : AdapterState) (st : RedisStore)
    (uuid : Nat → String) (now : String)
    (hready : isRedisReady a = true)
    (hnd : (storeKeys st).Nodup)
    (hfresh : ∀ i, i < st.length → ("user:" ++ uuid i) ∉ storeKeys st)
    (hinj : ∀ i j, i < st.length → j < st.length → uuid i = uuid j → i = j) :
    cleanupDuplicates a st uuid now
      = ({ status := 200, message := some "Cleanup completed",
           duplicatesRemoved := (dupList [] st).length,
           idsReassigned := (keepList [] st).countP
             (fun p => isAllDigits (idPart p.1)),
           totalProcessed := st.length },
         (keepList [] st).filter (fun p => !isAllDigits (idPart p.1))
           ++ rekeyOut uuid now (keepList [] st) 0) := by
  have hkeeplen : (keepList [] st).length ≤ st.length :=
    (keepList_sublist [] st).length_le
  have hkeepkeys : List.Sublist (storeKeys (keepList [] st)) (storeKeys st) :=
    (keepList_sublist [] st).map Prod.fst
  have hst1 : (dupList [] st).foldl (fun s d => hdel s d.1) st = keepList [] st := by
    rw [foldl_hdel_eq_filter, filter_not_dup st hnd []]
  have hrekey := rekeyGo_eq uuid now (keepList [] st) [] [] 0
    (by simpa using hkeepkeys.nodup hnd)
    (by
      intro i _ hi2 h
      apply hfresh i (by omega)
      exact hkeepkeys.subset (by simpa using h))
    (fun i j _ hi2 _ hj2 he => hinj i j (by omega) (by omega) he)
  simp only [List.nil_append, List.append_nil] at hrekey
  unfold cleanupDuplicates
  rw [if_neg (by rw [hready]; simp)]
  simp only [fetchAll_self st hnd, classifyGo_eq, List.nil_append, hst1, hrekey]
  have hlen : (storeKeys st).length = st.length := List.length_map ..
  simp [hlen]

/-! ## Decimal ids and key splitting -/

theorem isDigitChar_decDigit (d : Nat) : isDigitChar (decDigit d) = true := by
  unfold decDigit
  split <;> rfl

theorem natToDigitsGo_spec :
    ∀ (fuel n : Nat), n < fuel →
      (natToDigitsGo fuel n).all isDigitChar = true ∧ natToDigitsGo fuel n ≠ [] := by
  intro fuel
  induction fuel with
  | zero => intro n hn; omega
  | succ f ih =>
    intro n hn
    by_cases h : n < 10
    · rw [natToDigitsGo, if_pos h]
      simp [isDigitChar_decDigit]
    · rw [natToDigitsGo, if_neg h]
      have hdiv : n / 10 < f := by omega
      obtain ⟨h1, h2⟩ := ih (n / 10) hdiv
      constructor
      · rw [List.all_append, h1]
        simp [isDigitChar_decDigit]
      · simp

theorem isAllDigits_natToDecString (n : Nat) :
    isAllDigits (natToDecString n) = true := by
  obtain ⟨h1, h2⟩ := natToDigitsGo_spec (n + 1) n (by omega)
  unfold isAllDigits natToDecString natToDigits
  cases hc : natToDigitsGo (n + 1) n with
  | nil => exact absurd hc h2
  | cons c cs =>
    rw [hc] at h1
    simpa using h1

theorem colon_not_mem_natToDigits (n : Nat) : ':' ∉ natToDigits n := by
  intro hmem
  obtain ⟨h1, -⟩ := natToDigitsGo_spec (n + 1) n (by omega)
  have := (List.all_eq_true.mp h1) ':' hmem
  simp [isDigitChar] at this

theorem splitOnChar_of_not_mem (c : Char) :
    ∀ l : List Char, c ∉ l → splitOnChar c l = [l] := by
  intro l
  induction l with
  | nil => intro _; rfl
  | cons x xs ih =>
    intro h
    have hx : ¬x = c := fun he => h (he ▸ List.mem_cons_self ..)
    have hxs : c ∉ xs := fun hm => h (List.mem_cons_of_mem _ hm)
    rw [splitOnChar, if_neg hx, ih hxs]

theorem splitOnChar_user (l : List Char) :
    splitOnChar ':' ('u' :: 's' :: 'e' :: 'r' :: ':' :: l)
      = ['u', 's', 'e', 'r'] :: splitOnChar ':' l := rfl

theorem idPart_user (s : String) (h : ':' ∉ s.data) :
    idPart ("user:" ++ s) = s := by
  unfold idPart
  have hd : ("user:" ++ s).data = 'u' :: 's' :: 'e' :: 'r' :: ':' :: s.data := by
    rw [String.data_append]
    rfl
  rw [hd, splitOnChar_user, splitOnChar_of_not_mem _ _ h]
  rfl

theorem mysqlToRedis_foldl_store (tbl : MysqlTable) :
    ∀ (st0 : RedisStore) (c : Nat),
      (∀ u ∈ tbl, ("user:" ++ natToDecString u.id) ∉ storeKeys st0) →
      (tbl.map (fun u => "user:" ++ natToDecString u.id)).Nodup →
      (tbl.foldl (mysqlToRedisStep (fun _ => false)) (st0, c)).1
        = st0 ++ tbl.map (fun u => ("user:" ++ natToDecString u.id,
            (⟨u.name, u.email, jsOr u.phone "", jsOr u.address "",
              u.created_at⟩ : UserData))) := by
  induction tbl with
  | nil => intro st0 c _ _; simp
  | cons u rest ih =>
    intro st0 c hfr hnd
    have hnd' := List.nodup_cons.mp hnd
    rw [List.foldl_cons]
    have hstep : mysqlToRedisStep (fun _ => false) (st0, c) u
        = (st0 ++ [("user:" ++ natToDecString u.id,
            ⟨u.name, u.email, jsOr u.phone "", jsOr u.address "", u.created_at⟩)],
           c + 1) := by
      rw [mysqlToRedisStep, if_neg (by simp)]
      rw [hsetFull_append_of_not_mem _ _ _ (hfr u (List.mem_cons_self ..))]
    rw [hstep, ih _ (c + 1) ?_ hnd'.2]
    · simp [List.append_assoc]
    · intro v hv
      rw [storeKeys_append]
      intro hmem
      rcases List.mem_append.mp hmem with h1 | h1
      · exact hfr v (List.mem_cons_of_mem _ hv) h1
      · have heq : ("user:" ++ natToDecString v.id) = ("user:" ++ natToDecString u.id) := by
          simpa [storeKeys] using h1
        have hmm : ("user:" ++ natToDecString v.id)
            ∈ rest.map (fun u => "user:" ++ natToDecString u.id) :=
          List.mem_map_of_mem _ hv
        rw [heq] at hmm
        exact hnd'.1 hmm

/-! ## Theorems -/

/-- C1, counterexample: the claim says a failure that is not a topology or
routing error "is propagated to the caller immediately without any retry".
With outcomes where attempt 1 throws a WRONGTYPE error (no topology or
connection content, status "ready" throughout) and attempt 2 succeeds,
`executeRedisCommand` returns the attempt-2 success — the non-topology error
was retried, not propagated. -/
theorem c1_retries_nontopology_error :
    (executeRedisCommand true c1Attempts (fun _ => "ready") true 3).1 = Except.ok "OK" := by
  rfl

/-- C1 (amended): `executeRedisCommand` refuses when the adapter is not ready;
otherwise it runs the command up to `maxRetries = 3` times, retrying after
*every* failure — topology-related or not — with exponentially backed-off
delays; the error classification only decides whether the operational flag is
cleared; no reconnect is performed between attempts; and when all attempts
fail the *original last error* is rethrown (there is no ClusterUnavailable
translation). -/
theorem c1_amended_retry_contract :
    (∀ attempts statusAt op v, attempts 1 = CmdResult.ok v →
      executeRedisCommand true attempts statusAt op 3 = (Except.ok v, op))
    ∧ (∀ attempts statusAt op m v, attempts 1 = CmdResult.err m →
      attempts 2 = CmdResult.ok v →
      (executeRedisCommand true attempts statusAt op 3).1 = Except.ok v)
    ∧ (∀ attempts statusAt op m1 m2 m3, attempts 1 = CmdResult.err m1 →
      attempts 2 = CmdResult.err m2 → attempts 3 = CmdResult.err m3 →
      (executeRedisCommand true attempts statusAt op 3).1 = Except.error m3)
    ∧ (∀ attempts statusAt op,
      executeRedisCommand false attempts statusAt op 3
        = (Except.error "Redis cluster is not ready or operational", op))
    ∧ retryDelayMs 1 = 1000 ∧ retryDelayMs 2 = 2000 ∧ retryDelayMs 3 = 4000 := by
  refine ⟨?_, ?_, ?_, ?_, rfl, rfl, rfl⟩
  · intro attempts statusAt op v h1
    simp [executeRedisCommand, execRetry, h1]
  · intro attempts statusAt op m v h1 h2
    simp [executeRedisCommand, execRetry, h1, h2]
  · intro attempts statusAt op m1 m2 m3 h1 h2 h3
    simp [executeRedisCommand, execRetry, h1, h2, h3]
  · intro attempts statusAt op
    simp [executeRedisCommand]

/-- C1, witness for the amended theorem at concrete inputs: a command that
succeeds at once returns its value with the flag untouched, and a command
failing on all three attempts with a CLUSTERDOWN error rethrows that error. -/
theorem c1_amended_retry_contract_witness :
    (executeRedisCommand true (fun _ => CmdResult.ok "PONG") (fun _ => "ready") true 3
      = (Except.ok "PONG", true))
    ∧ (executeRedisCommand true c1AllFail (fun _ => "ready") true 3).1
      = Except.error "CLUSTERDOWN The cluster is down" :=
  ⟨c1_amended_retry_contract.1 (fun _ => CmdResult.ok "PONG") (fun _ => "ready") true "PONG" rfl,
   c1_amended_retry_contract.2.2.1 c1AllFail (fun _ => "ready") true _ _ _ rfl rfl rfl⟩

/-- C2: in cluster mode the enumeration scans exactly the master shard owners
whose connection status is "ready" and returns the deduplicated union of the
keys they yield: (i) the result equals the insertion-order deduplication of
the concatenated contributions of the ready masters; (ii) the result has no
duplicates; (iii) a key is returned iff some ready master yields it — so a
non-ready master is skipped and a master whose scan throws loses only its
own unscanned keys, without failing the whole enumeration; (iv) a master
whose scan does not throw contributes its full cursor loop, every batch until
the cursor returns to the start value "0". -/
theorem c2_cluster_enumeration_spec :
    (∀ masters sn,
      getAllKeysFromCluster true ⟨true, Except.ok masters, sn⟩
        = listDedup (((masters.filter (fun m => m.status == "ready")).map
            (fun m => (scanMaster m).1)).flatten))
    ∧ (∀ masters sn,
      (getAllKeysFromCluster true ⟨true, Except.ok masters, sn⟩).Nodup)
    ∧ (∀ k masters sn,
      k ∈ getAllKeysFromCluster true ⟨true, Except.ok masters, sn⟩ ↔
        ∃ m ∈ masters, m.status = "ready" ∧ k ∈ (scanMaster m).1)
    ∧ (∀ status pages, scanMaster ⟨status, pages, none⟩ = (pages.flatten, false)) := by
  have heq : ∀ (masters : List MasterNode) (sn : MasterNode),
      getAllKeysFromCluster true ⟨true, Except.ok masters, sn⟩
        = listDedup (((masters.filter (fun m => m.status == "ready")).map
            (fun m => (scanMaster m).1)).flatten) := by
    intro masters sn
    show masters.foldl _ [] = _
    rw [getAllKeys_foldl]
    rfl
  refine ⟨heq, ?_, ?_, ?_⟩
  · intro masters sn
    rw [heq]
    exact setAddAll_nodup _ List.nodup_nil
  · intro k masters sn
    rw [heq, mem_listDedup]
    simp only [List.mem_flatten, List.mem_map, List.mem_filter]
    constructor
    · rintro ⟨ks, ⟨m, ⟨hm, hs⟩, rfl⟩, hk⟩
      exact ⟨m, hm, by simpa using hs, hk⟩
    · rintro ⟨m, hm, hs, hk⟩
      exact ⟨(scanMaster m).1, ⟨m, ⟨hm, by simpa using hs⟩, rfl⟩, hk⟩
  · intro status pages
    simp [scanMaster, scanPagesGo_none]

/-- C3, counterexample: on the relational endpoint an omitted phone/address
is NOT stored as the empty string.  POST {name, email} on an empty table
succeeds (201) and the subsequent GET returns the row with phone and address
NULL (`none`), not the empty string: the handler binds the request values
unchanged and without an `|| ''` default. -/
theorem c3_mysql_omitted_phone_is_null :
    (mysqlPostUser annBody [] 1 "2024-01-01T00:00:00.000Z").1.status = 201
    ∧ mysqlGetUser (mysqlPostUser annBody [] 1 "2024-01-01T00:00:00.000Z").2 1
      = { status := 200,
          mysqlUser := some ⟨1, "Ann", "ann@x.com", none, none,
            some "2024-01-01T00:00:00.000Z"⟩ }
    ∧ (mysqlGetUser (mysqlPostUser annBody [] 1 "2024-01-01T00:00:00.000Z").2 1).mysqlUser.map
        MysqlUserJson.phone ≠ some (some "") := by
  refine ⟨rfl, rfl, ?_⟩
  decide

/-- C3 (amended): POST then GET by the returned id yields the same name,
email, phone and address on both endpoints; an omitted phone/address is
stored and returned as the empty string by the key-value endpoint, but as a
NULL/absent value by the relational endpoint. -/
theorem c3_amended_post_get_roundtrip :
    (∀ a st body newId now, isRedisReady a = true → truthy body.name = true →
      truthy body.email = true →
      (∀ p ∈ st, p.2.email ≠ body.email.getD "") →
      (redisPostUser a st body newId now).1
        = { status := 201,
            redisUser := some ⟨newId, body.name.getD "", body.email.getD "",
              jsOr body.phone "", jsOr body.address "", some now⟩ }
      ∧ redisGetUser a (redisPostUser a st body newId now).2 newId
        = { status := 200,
            redisUser := some ⟨newId, body.name.getD "", body.email.getD "",
              jsOr body.phone "", jsOr body.address "", some now⟩ })
    ∧ (∀ body tbl nextId now, truthy body.name = true → truthy body.email = true →
      (∀ r ∈ tbl, r.email ≠ body.email.getD "") →
      (∀ r ∈ tbl, r.id ≠ nextId) →
      (mysqlPostUser body tbl nextId now).1
        = { status := 201,
            mysqlUser := some ⟨nextId, body.name.getD "", body.email.getD "",
              body.phone, body.address, none⟩ }
      ∧ mysqlGetUser (mysqlPostUser body tbl nextId now).2 nextId
        = { status := 200,
            mysqlUser := some ⟨nextId, body.name.getD "", body.email.getD "",
              body.phone, body.address, some now⟩ }) := by
  constructor
  · intro a st body newId now hready hname hemail hdup
    have hany : st.any (fun p => p.2.email == body.email.getD "") = false := by
      rw [List.any_eq_false]
      intro p hp
      simpa using hdup p hp
    constructor
    · simp [redisPostUser, hready, hname, hemail, hany]
    · simp only [redisPostUser, hready, hname, hemail, hany]
      simp [redisGetUser, hready, hgetall_hsetFull_self]
  · intro body tbl nextId now hname hemail hdup hid
    have hany : tbl.any (fun r => r.email == body.email.getD "") = false := by
      rw [List.any_eq_false]
      intro r hr
      simpa using hdup r hr
    have hfind : tbl.find? (fun r => r.id == nextId) = none := by
      rw [List.find?_eq_none]
      intro r hr
      simpa using hid r hr
    constructor
    · simp [mysqlPostUser, mysqlInsertUser, hname, hemail, hany]
    · simp only [mysqlPostUser, mysqlInsertUser, hname, hemail, hany]
      simp only [Bool.not_true, Bool.false_or, if_neg]
      simp [mysqlGetUser, find?_append_of_none hfind, List.find?_cons]

/-- C3, witness for the amended round-trip at concrete inputs: a body with a
phone but no address, posted to an empty key-value store and an empty table. -/
theorem c3_amended_post_get_roundtrip_witness :
    (redisGetUser ⟨true, "ready", true⟩
      (redisPostUser ⟨true, "ready", true⟩ [] ⟨some "Bob", some "bob@x.com", some "555", none⟩
        "u-1" "t0").2 "u-1"
      = { status := 200,
          redisUser := some ⟨"u-1", "Bob", "bob@x.com", "555", "", some "t0"⟩ })
    ∧ (mysqlGetUser (mysqlPostUser ⟨some "Bob", some "bob@x.com", some "555", none⟩ [] 7 "t0").2 7
      = { status := 200,
          mysqlUser := some ⟨7, "Bob", "bob@x.com", some "555", none, some "t0"⟩ }) :=
  ⟨(c3_amended_post_get_roundtrip.1 ⟨true, "ready", true⟩ []
      ⟨some "Bob", some "bob@x.com", some "555", none⟩ "u-1" "t0" rfl rfl rfl
      (by intro p hp; simp at hp)).2,
   (c3_amended_post_get_roundtrip.2 ⟨some "Bob", some "bob@x.com", some "555", none⟩ [] 7 "t0"
      rfl rfl (by intro r hr; simp at hr) (by intro r hr; simp at hr)).2⟩

/-- C4: whenever `isRedisReady()` is false — no cluster handle, status not
"ready", or operational flag cleared — every key-value endpoint answers 503
with {error: "Redis not ready"} immediately and leaves both stores
untouched (the guard returns before any store access, so the read-only
endpoints' responses are independent of the stores as well). -/
theorem c4_not_ready_all_endpoints_503 (a : AdapterState)
    (h : isRedisReady a = false) :
    (∀ cm st f, redisGetUsers a cm st f = notReadyResp)
    ∧ (∀ st id, redisGetUser a st id = notReadyResp)
    ∧ (∀ st body newId now, redisPostUser a st body newId now = (notReadyResp, st))
    ∧ (∀ st id body, redisPutUser a st id body = (notReadyResp, st))
    ∧ (∀ st id, redisDeleteUser a st id = (notReadyResp, st))
    ∧ (∀ tbl st hf, mysqlToRedis a tbl st hf = (notReadyResp, st))
    ∧ (∀ st tbl ff insf nid now, redisToMysql a st tbl ff insf nid now = (notReadyResp, tbl))
    ∧ (∀ st uuid now, cleanupDuplicates a st uuid now = (notReadyResp, st)) := by
  refine ⟨?_, ?_, ?_, ?_, ?_, ?_, ?_, ?_⟩ <;> intros <;>
    simp [redisGetUsers, redisGetUser, redisPostUser, redisPutUser, redisDeleteUser,
      mysqlToRedis, redisToMysql, cleanupDuplicates, h]

/-- C4, witness: an adapter whose connection status is "connecting" (so not
ready) makes a representative endpoint of each kind refuse with 503 and
leave the store unchanged. -/
theorem c4_not_ready_all_endpoints_503_witness :
    redisGetUser ⟨true, "connecting", true⟩ [] "1" = notReadyResp
    ∧ redisPostUser ⟨false, "ready", true⟩ [] annBody "u" "t" = (notReadyResp, [])
    ∧ cleanupDuplicates ⟨true, "ready", false⟩ [] (fun _ => "u") "t" = (notReadyResp, []) :=
  ⟨(c4_not_ready_all_endpoints_503 ⟨true, "connecting", true⟩ rfl).2.1 [] "1",
   (c4_not_ready_all_endpoints_503 ⟨false, "ready", true⟩ rfl).2.2.1 [] annBody "u" "t",
   (c4_not_ready_all_endpoints_503 ⟨true, "ready", false⟩ rfl).2.2.2.2.2.2.2 [] (fun _ => "u") "t"⟩

/-- C7: under non-concurrent execution a second POST with an email already
present in the same store returns 409 {error: "Email already exists"} and
creates no record: the relational handler maps the store's unique-constraint
violation (ER_DUP_ENTRY) to 409, and the key-value handler finds the email
by its linear scan of every record before inserting. -/
theorem c7_duplicate_email_409 :
    (∀ body tbl nextId now, truthy body.name = true → truthy body.email = true →
      (∃ r ∈ tbl, r.email = body.email.getD "") →
      mysqlPostUser body tbl nextId now
        = ({ status := 409, error := some "Email already exists" }, tbl))
    ∧ (∀ a st body newId now, isRedisReady a = true →
      truthy body.name = true → truthy body.email = true →
      (∃ p ∈ st, p.2.email = body.email.getD "") →
      redisPostUser a st body newId now
        = ({ status := 409, error := some "Email already exists" }, st)) := by
  constructor
  · intro body tbl nextId now hname hemail hdup
    have hany : tbl.any (fun r => r.email == body.email.getD "") = true := by
      rw [List.any_eq_true]
      obtain ⟨r, hr, he⟩ := hdup
      exact ⟨r, hr, by simpa using he⟩
    simp [mysqlPostUser, mysqlInsertUser, hname, hemail, hany]
  · intro a st body newId now hready hname hemail hdup
    have hany : st.any (fun p => p.2.email == body.email.getD "") = true := by
      rw [List.any_eq_true]
      obtain ⟨p, hp, he⟩ := hdup
      exact ⟨p, hp, by simpa using he⟩
    simp [redisPostUser, hready, hname, hemail, hany]

/-- C7, witness: with "ann@x.com" already stored in each store, the second
POST of that email is refused by both handlers and both stores are
unchanged. -/
theorem c7_duplicate_email_409_witness :
    mysqlPostUser annBody [⟨1, "Old", "ann@x.com", none, none, "t0"⟩] 2 "t1"
      = ({ status := 409, error := some "Email already exists" },
         [⟨1, "Old", "ann@x.com", none, none, "t0"⟩])
    ∧ redisPostUser ⟨true, "ready", true⟩ [("user:9", ⟨"Old", "ann@x.com", "", "", "t0"⟩)]
        annBody "u-2" "t1"
      = ({ status := 409, error := some "Email already exists" },
         [("user:9", ⟨"Old", "ann@x.com", "", "", "t0"⟩)]) :=
  ⟨c7_duplicate_email_409.1 annBody [⟨1, "Old", "ann@x.com", none, none, "t0"⟩] 2 "t1"
      rfl rfl ⟨⟨1, "Old", "ann@x.com", none, none, "t0"⟩, by simp, rfl⟩,
   c7_duplicate_email_409.2 ⟨true, "ready", true⟩
      [("user:9", ⟨"Old", "ann@x.com", "", "", "t0"⟩)] annBody "u-2" "t1" rfl rfl rfl
      ⟨("user:9", ⟨"Old", "ann@x.com", "", "", "t0"⟩), by simp, rfl⟩⟩

/-- C6: both bulk copies attempt every source record independently — a
per-record failure never aborts the batch and is always accounted for.
mysql-to-redis reports total = row count and success = the number of rows
whose write did not throw (so total − success is exactly the failure count);
redis-to-mysql reports total = key count, success = the records fetched and
upserted without a throw, errors = the records whose fetch or upsert threw,
and total = success + errors + the silently-skipped empty hashes. -/
theorem c6_bulk_copy_partial_failure :
    (∀ a tbl st hf, isRedisReady a = true →
      (mysqlToRedis a tbl st hf).1.status = 200
      ∧ (mysqlToRedis a tbl st hf).1.total = tbl.length
      ∧ (mysqlToRedis a tbl st hf).1.success = tbl.countP (fun u => !hf u.id)
      ∧ (mysqlToRedis a tbl st hf).1.total
        = (mysqlToRedis a tbl st hf).1.success + tbl.countP (fun u => hf u.id))
    ∧ (∀ a st tbl ff insf nid now, isRedisReady a = true →
      (redisToMysql a st tbl ff insf nid now).1.status = 200
      ∧ (redisToMysql a st tbl ff insf nid now).1.total = (storeKeys st).length
      ∧ (redisToMysql a st tbl ff insf nid now).1.success
        = (storeKeys st).countP (r2mOk st ff insf)
      ∧ (redisToMysql a st tbl ff insf nid now).1.errors
        = (storeKeys st).countP (r2mErr st ff insf)
      ∧ (redisToMysql a st tbl ff insf nid now).1.total
        = (redisToMysql a st tbl ff insf nid now).1.success
          + (redisToMysql a st tbl ff insf nid now).1.errors
          + (storeKeys st).countP (r2mSkip st ff)) := by
  constructor
  · intro a tbl st hf hready
    refine ⟨?_, ?_, ?_, ?_⟩ <;>
      simp [mysqlToRedis, hready, mysqlToRedis_foldl_success, ← countP_hf_partition]
  · intro a st tbl ff insf nid now hready
    refine ⟨?_, ?_, ?_, ?_, ?_⟩ <;>
      simp [redisToMysql, hready, redisToMysql_foldl_copied, redisToMysql_foldl_errs,
        ← r2m_partition]

/-- C6, witness: with one failing record on each side, the counters reflect
the failure without dropping the rest of the batch. -/
theorem c6_bulk_copy_partial_failure_witness :
    ((mysqlToRedis ⟨true, "ready", true⟩ c6Tbl [] c6Hf).1.success = 1)
    ∧ ((redisToMysql ⟨true, "ready", true⟩ c6St [] c6Ff (fun _ => false) 1 "t1").1.errors = 1) :=
  ⟨((c6_bulk_copy_partial_failure.1 ⟨true, "ready", true⟩ c6Tbl [] c6Hf rfl).2.2.1).trans
      (by decide),
   ((c6_bulk_copy_partial_failure.2 ⟨true, "ready", true⟩ c6St [] c6Ff (fun _ => false) 1 "t1"
      rfl).2.2.2.1).trans (by decide)⟩

/-- C5: after POST /api/redis/cleanup-duplicates — with a ready adapter,
distinct store keys, app-written records (non-empty created_at) and fresh,
pairwise-distinct, non-numeric generated UUIDs — (i) every email present
before the call, in particular every email carried by two or more records,
is carried by exactly one record afterwards; (ii) every remaining record
equals, field for field, the first record with its email in enumeration
order (the first one encountered is kept, possibly under a new key);
(iii) no remaining record has an id consisting only of digits: every kept
record with a numeric id was re-keyed under a newly generated non-numeric
id. -/
theorem c5_cleanup_duplicates_spec (a : AdapterState) (st : RedisStore)
    (uuid : Nat → String) (now : String)
    (hready : isRedisReady a = true)
    (hnd : (storeKeys st).Nodup)
    (hfresh : ∀ i, i < st.length → ("user:" ++ uuid i) ∉ storeKeys st)
    (hinj : ∀ i, i < st.length → ∀ j, j < st.length → uuid i = uuid j → i = j)
    (hnonnum : ∀ i, i < st.length → isAllDigits (idPart ("user:" ++ uuid i)) = false)
    (hca : ∀ p ∈ st, p.2.created_at.isEmpty = false) :
    (∀ e, 1 ≤ st.countP (fun p => p.2.email == e) →
      ((cleanupDuplicates a st uuid now).2).countP (fun p => p.2.email == e) = 1)
    ∧ (∀ q ∈ (cleanupDuplicates a st uuid now).2,
        ∃ p, st.find? (fun x => x.2.email == q.2.email) = some p ∧ q.2 = p.2)
    ∧ (∀ q ∈ (cleanupDuplicates a st uuid now).2,
        isAllDigits (idPart q.1) = false) := by
  rw [cleanupDuplicates_eq a st uuid now hready hnd hfresh
    (fun i j hi hj he => hinj i hi j hj he)]
  refine ⟨?_, ?_, ?_⟩
  · intro e he
    rw [List.countP_append, countP_email_rekeyOut, Nat.add_comm,
      ← countP_filter_split (fun p => p.2.email == e)
        (fun p => isAllDigits (idPart p.1)),
      count_keepList e st []]
    have hany : st.any (fun p => p.2.email == e) = true := by
      rw [List.any_eq_true]
      obtain ⟨x, hx, hpx⟩ := List.countP_pos_iff.mp
        (show 0 < st.countP (fun p => p.2.email == e) by omega)
      exact ⟨x, hx, hpx⟩
    simp [hany]
  · intro q hq
    rcases List.mem_append.mp hq with hq1 | hq1
    · have hqk : q ∈ keepList [] st := (List.mem_filter.mp hq1).1
      obtain ⟨-, hfind⟩ := keepList_find? st [] q hqk
      exact ⟨q, hfind, rfl⟩
    · obtain ⟨p, hp, hdig, i, hi1, hi2, rfl⟩ := mem_rekeyOut uuid now _ 0 q hq1
      have hpst : p ∈ st := (keepList_sublist [] st).subset hp
      have htd : transformData p.2 now = p.2 := transformData_fields p.2 now (hca p hpst)
      obtain ⟨-, hfind⟩ := keepList_find? st [] p hp
      refine ⟨p, ?_, by simpa using htd⟩
      simpa [htd] using hfind
  · intro q hq
    rcases List.mem_append.mp hq with hq1 | hq1
    · simpa using (List.mem_filter.mp hq1).2
    · obtain ⟨p, hp, hdig, i, hi1, hi2, rfl⟩ := mem_rekeyOut uuid now _ 0 q hq1
      apply hnonnum i
      have := (keepList_sublist [] st).length_le
      omega

/-- C5, witness: on a store with two records sharing "a@x.com" (one under the
numeric key "user:1") and one other record, exactly one "a@x.com" record
remains after the cleanup. -/
theorem c5_cleanup_duplicates_spec_witness :
    ((cleanupDuplicates ⟨true, "ready", true⟩ c5St c5Uuid "t9").2).countP
      (fun p => p.2.email == "a@x.com") = 1 :=
  (c5_cleanup_duplicates_spec ⟨true, "ready", true⟩ c5St c5Uuid "t9" rfl
    (by decide) (by decide) (by decide) (by decide) (by decide)).1
    "a@x.com" (by decide)

theorem waitLoop_false (checks : Nat → CheckResult)
    (hfail : ∀ i, checkPasses (checks i) = false) :
    ∀ (fuel i : Nat), waitLoop checks i fuel = false := by
  intro fuel
  induction fuel with
  | zero => intro i; rfl
  | succ n ih =>
    intro i
    rw [waitLoop, hfail i]
    simpa using ih (i + 1)

/-- C8, counterexample: when the readiness wait never observes full shard
coverage, initialization does fail with an error — but a successful
single-node fallback then makes the adapter ready with no reconnect request
ever issued, contradicting "the adapter is never ready in between". -/
theorem c8_fallback_defeats_unavailability :
    waitForClusterReady c8FailChecks = false
    ∧ initRedis false c8FailChecks (fun _ => false)
      = Except.error "Redis cluster did not become ready within the timeout period"
    ∧ serverStartup false c8FailChecks (fun _ => false) true = (true, true) := by
  refine ⟨by decide, rfl, rfl⟩

/-- C8 (amended): if every poll of the readiness wait fails to observe full
shard coverage, the bounded wait returns false and initialization fails with
an error; the host process keeps running; the server then automatically
attempts a single-node fallback, and the adapter is ready after startup iff
the fallback succeeds; an explicit reconnect request re-runs initialization,
and the adapter is then ready iff that run succeeds. -/
theorem c8_amended_startup_contract (checks : Nat → CheckResult)
    (connOk : Nat → Bool)
    (hfail : ∀ i, checkPasses (checks i) = false) :
    waitForClusterReady checks = false
    ∧ initRedis false checks connOk
      = Except.error "Redis cluster did not become ready within the timeout period"
    ∧ (∀ fallbackOk, serverStartup false checks connOk fallbackOk = (true, fallbackOk))
    ∧ (∀ d c k, reconnectEndpoint d c k = true ↔ ∃ u, initRedis d c k = Except.ok u) := by
  have hwait : waitForClusterReady checks = false := waitLoop_false checks hfail 120 1
  have hinit : initRedis false checks connOk
      = Except.error "Redis cluster did not become ready within the timeout period" := by
    simp [initRedis, hwait]
  refine ⟨hwait, hinit, ?_, ?_⟩
  · intro fallbackOk
    rw [serverStartup, hinit]
  · intro d c k
    rw [reconnectEndpoint]
    cases h : initRedis d c k with
    | ok u => simp [h]
    | error e => simp [h]

/-- C8, witness for the amended contract: with the never-ready probe
sequence and a failing fallback, the server runs but the adapter is not
ready. -/
theorem c8_amended_startup_contract_witness :
    serverStartup false c8FailChecks (fun _ => false) false = (true, false) :=
  (c8_amended_startup_contract c8FailChecks (fun _ => false) (fun _ => rfl)).2.2.1 false

/-- C9: the mysql-to-redis copy stores each relational row under
`user:<relational id>` — the decimal string of the auto-increment id, never
a freshly generated token — so every copied record's id is an all-digits
string satisfying the exact `/^\d+$/` test the cleanup endpoint applies,
while a generated (colon-free, non-numeric) id fails that test: the copied
numeric ids are exactly the ones cleanup-duplicates later re-keys. -/
theorem c9_mysql_to_redis_numeric_ids (a : AdapterState) (tbl : MysqlTable)
    (hready : isRedisReady a = true)
    (hnd : (tbl.map (fun u => "user:" ++ natToDecString u.id)).Nodup) :
    (mysqlToRedis a tbl [] (fun _ => false)).2
      = tbl.map (fun u => ("user:" ++ natToDecString u.id,
          (⟨u.name, u.email, jsOr u.phone "", jsOr u.address "",
            u.created_at⟩ : UserData)))
    ∧ (∀ p ∈ (mysqlToRedis a tbl [] (fun _ => false)).2,
        isAllDigits (idPart p.1) = true)
    ∧ (∀ s : String, ':' ∉ s.data → isAllDigits s = false →
        isAllDigits (idPart ("user:" ++ s)) = false) := by
  have hstore : (mysqlToRedis a tbl [] (fun _ => false)).2
      = tbl.map (fun u => ("user:" ++ natToDecString u.id,
          (⟨u.name, u.email, jsOr u.phone "", jsOr u.address "",
            u.created_at⟩ : UserData))) := by
    unfold mysqlToRedis
    rw [if_neg (by rw [hready]; simp)]
    simpa using mysqlToRedis_foldl_store tbl [] 0 (by simp [storeKeys]) hnd
  refine ⟨hstore, ?_, ?_⟩
  · intro p hp
    rw [hstore] at hp
    obtain ⟨u, -, rfl⟩ := List.mem_map.mp hp
    show isAllDigits (idPart ("user:" ++ natToDecString u.id)) = true
    rw [idPart_user (natToDecString u.id) (colon_not_mem_natToDigits u.id)]
    exact isAllDigits_natToDecString u.id
  · intro s h1 h2
    rw [idPart_user s h1]
    exact h2

/-- C9, witness: copying two rows (ids 3 and 12) yields exactly the hashes
`user:3` and `user:12`, and the generated-style id "g7" is not re-keyed by
the cleanup test. -/
theorem c9_mysql_to_redis_numeric_ids_witness :
    (mysqlToRedis ⟨true, "ready", true⟩ c9Tbl [] (fun _ => false)).2
      = c9Tbl.map (fun u => ("user:" ++ natToDecString u.id,
          (⟨u.name, u.email, jsOr u.phone "", jsOr u.address "",
            u.created_at⟩ : UserData)))
    ∧ isAllDigits (idPart ("user:" ++ "g7")) = false :=
  ⟨(c9_mysql_to_redis_numeric_ids ⟨true, "ready", true⟩ c9Tbl rfl (by decide)).1,
   (c9_mysql_to_redis_numeric_ids ⟨true, "ready", true⟩ c9Tbl rfl (by decide)).2.2
     "g7" (by decide) (by decide)⟩

/-- C10: the cross-shard enumeration is total at its interface — it returns
an array in every case and never propagates an exception: not ready → `[]`;
a throw of `nodes('master')` → `[]`; a throw of the fallback single-node
scan → `[]`; a per-master failure loses no other master's keys (every key a
ready master yields is in the result, whatever the other masters do); and
consequently GET /api/redis/users answers 200 — possibly with a partial or
empty list — whenever the adapter is ready, for every cluster state and
per-key fetch outcome. -/
theorem c10_enumeration_total :
    (∀ cm, getAllKeysFromCluster false cm = [])
    ∧ (∀ e sn, getAllKeysFromCluster true ⟨true, Except.error e, sn⟩ = [])
    ∧ (∀ sn ms, (scanMaster sn).2 = true →
        getAllKeysFromCluster true ⟨false, ms, sn⟩ = [])
    ∧ (∀ masters sn m k, m ∈ masters → m.status = "ready" →
        k ∈ (scanMaster m).1 →
        k ∈ getAllKeysFromCluster true ⟨true, Except.ok masters, sn⟩)
    ∧ (∀ a cm st f, isRedisReady a = true →
        (redisGetUsers a cm st f).status = 200) := by
  refine ⟨?_, ?_, ?_, ?_, ?_⟩
  · intro cm; rfl
  · intro e sn; rfl
  · intro sn ms h
    show (match scanMaster sn with
      | (_, true) => []
      | (keys, false) => listDedup keys) = []
    cases hs : scanMaster sn with
    | mk ks b =>
      rw [hs] at h
      cases b
      · simp at h
      · rfl
  · intro masters sn m k hm hready hk
    show k ∈ masters.foldl _ []
    rw [getAllKeys_foldl, mem_setAddAll]
    right
    rw [List.mem_flatten]
    refine ⟨(scanMaster m).1, ?_, hk⟩
    exact List.mem_map_of_mem _ (List.mem_filter.mpr ⟨hm, by simp [hready]⟩)
  · intro a cm st f hready
    simp [redisGetUsers, hready]

/-- C10, witness: with one healthy master and one that throws mid-scan, the
healthy master's key is still enumerated, and the list endpoint answers 200
even though the single-node fallback model would throw. -/
theorem c10_enumeration_total_witness :
    "user:1" ∈ getAllKeysFromCluster true ⟨true, Except.ok c10Masters, c10Sn⟩
    ∧ getAllKeysFromCluster true ⟨false, Except.ok c10Masters, c10Sn⟩ = []
    ∧ (redisGetUsers ⟨true, "ready", true⟩ ⟨true, Except.ok c10Masters, c10Sn⟩ []
        (fun _ => false)).status = 200 :=
  ⟨c10_enumeration_total.2.2.2.1 c10Masters c10Sn
      ⟨"ready", [["user:1"], ["user:2"]], none⟩ "user:1" (by decide) rfl (by decide),
   c10_enumeration_total.2.2.1 c10Sn (Except.ok c10Masters) (by decide),
   c10_enumeration_total.2.2.2.2 ⟨true, "ready", true⟩
      ⟨true, Except.ok c10Masters, c10Sn⟩ [] (fun _ => false) rfl⟩

end UserApp
